import Mathlib

/-!
Verification of the ESP32 DSMR smart-meter reader (src/DSMR.ino) against its
natural-language specification.

The development shallowly embeds the three spec components:
* TelegramRelay   — `calculateCrc16` / `sendTelegram` (DSMR.ino lines 263-286),
* UsageAggregator — `updateUsage` and its global state    (lines 84-93, 318-340),
* GaugeMapper     — `setCurrentValue` and its global state (lines 69-70, 294-312).

Bytes are `ℕ` (kept below 2^8 / 2^16 by the operations themselves; the C
variables are uint8_t/uint16_t and none of the modelled operations overflow),
energy/power values are `ℚ` (the C code uses `float`; all spec-relevant inputs
are exactly representable and no claim depends on rounding of binary floats),
and Arduino `String` is Lean `String`.
-/

namespace DSMR

/-! ### TelegramRelay: CRC-16 and telegram framing (DSMR.ino lines 262-286) -/

/-- Body of the eight-fold loop of avr-libc `_crc16_update`: one shift step of
the reflected-0xA001 CRC. `crc` is a 16-bit value. -/
def crc16Shift (crc : ℕ) : ℕ :=
  if crc % 2 = 1 then (crc / 2) ^^^ 0xA001 else crc / 2

/-- Model of avr-libc `_crc16_update (crc, a)`: XOR the byte in, then eight
shift steps. For `crc < 2^16` and `a < 2^8` no overflow occurs, so no masking
is needed. -/
def crc16_update (crc a : ℕ) : ℕ :=
  crc16Shift^[8] (crc ^^^ a)

/-- Model of `calculateCrc16` (DSMR.ino lines 263-272): CRC of the byte `/`
(47), then every byte of `buf`, then the byte `!` (33), starting from 0. The
result is the 16-bit checksum before hex formatting. The C function then
renders it with `sprintf("%04X", crc)`; see `hex4`. -/
def calculateCrc16 (buf : List ℕ) : ℕ :=
  crc16_update (buf.foldl crc16_update (crc16_update 0 47)) 33

/-- Uppercase hexadecimal digit, as produced by `%X`. -/
def hexDigitU (n : ℕ) : Char :=
  if n < 10 then Char.ofNat (48 + n) else Char.ofNat (55 + n)

/-- Model of `sprintf("%04X", n)` for `n < 2^16`: exactly four uppercase hex
digits, zero padded. (The C code writes these four digits plus a NUL into a
4-byte buffer `char formatted[4]`, a one-byte stack overflow; the produced
digit string itself is as modelled.) -/
def hex4 (n : ℕ) : List Char :=
  [hexDigitU (n / 4096 % 16), hexDigitU (n / 256 % 16),
   hexDigitU (n / 16 % 16), hexDigitU (n % 16)]

/-- Model of `sendTelegram` (DSMR.ino lines 274-286). Its only observable
effect is the byte sequence written to `RemoteClient`; we return that sequence.
`connected` models `RemoteClient.connected()`. When connected the code prints
`/`, the raw buffer, `!`, the four CRC hex digits, CR LF, and a single zero
byte; otherwise it does nothing. -/
def sendTelegram (connected : Bool) (buf : List ℕ) : List ℕ :=
  if connected then
    [47] ++ buf ++ [33] ++ (hex4 (calculateCrc16 buf)).map Char.toNat ++ [13, 10] ++ [0]
  else
    []

/-- Specification-side CRC: the standard CRC-16 (reflected 0xA001, initial
value 0) of a whole byte list, folded left to right. -/
def crcOver (l : List ℕ) : ℕ :=
  l.foldl crc16_update 0

theorem calculateCrc16_eq_crcOver (buf : List ℕ) :
    calculateCrc16 buf = crcOver ([47] ++ buf ++ [33]) := by
  simp [calculateCrc16, crcOver, List.foldl_append]

/-- C1: for every raw payload, with a consumer attached, the relay transmits
exactly `/` ++ raw ++ `!` ++ HHHH ++ CR LF ++ 0x00, where HHHH is the
4-uppercase-hex-digit rendering of the CRC-16 (reflected polynomial 0xA001,
initial value 0) computed over `/` ++ raw ++ `!`. -/
theorem C1_relay_framing (buf : List ℕ) :
    sendTelegram true buf =
      [47] ++ buf ++ [33] ++
        (hex4 (crcOver ([47] ++ buf ++ [33]))).map Char.toNat ++ [13, 10, 0] := by
  simp [sendTelegram, calculateCrc16, crcOver, List.foldl_append]

/-- C8: for every raw payload, calling the relay while no consumer is attached
writes no bytes at all (and there is no error path: `sendTelegram` returns
normally having done nothing). -/
theorem C8_relay_no_consumer (buf : List ℕ) :
    sendTelegram false buf = [] := by
  simp [sendTelegram]

/-! ### Numeric formatting primitives (C `round` and Arduino `dtostrf`) -/

/-- Model of the C `round` function: round half away from zero. -/
def roundAway (q : ℚ) : ℤ :=
  if q < 0 then -⌊-q + 1/2⌋ else ⌊q + 1/2⌋

/-- Decimal digits of a natural number, most significant first. Written with
explicit fuel so that the kernel can evaluate it; callers pass `fuel > n`. -/
def natDigitsGo : ℕ → ℕ → List Char
  | 0, _ => []
  | fuel + 1, n =>
    if n < 10 then [Nat.digitChar n]
    else natDigitsGo fuel (n / 10) ++ [Nat.digitChar (n % 10)]

/-- Decimal digit string of a natural number, most significant first. -/
def natDigits (n : ℕ) : List Char :=
  natDigitsGo (n + 1) n

/-- Left padding with spaces to a minimum field width, as printf field widths
do (never truncates). -/
def padLeft (width : ℕ) (s : List Char) : List Char :=
  List.replicate (width - s.length) (Char.ofNat 32) ++ s

/-- Model of Arduino `dtostrf(val, width, 1, out)`: fixed-point rendering with
exactly one fractional digit (rounding half away from zero to that digit), a
minus sign for negative values, left padded with spaces to a minimum total
width of `width`. -/
def dtostrf1 (val : ℚ) (width : ℕ) : List Char :=
  let r := roundAway (val * 10)
  padLeft width
    ((if r < 0 then [Char.ofNat 45] else []) ++
      natDigits (r.natAbs / 10) ++ [Char.ofNat 46, Nat.digitChar (r.natAbs % 10)])

/-! ### UsageAggregator: `updateUsage` and its globals (DSMR.ino 89-93, 314-340) -/

/-- Model of Arduino `String::substring(left, right)`: both indices are clamped
to the string length (a short string comes back whole; there is no
out-of-bounds read in the Arduino implementation). -/
def substring (s : String) (left right : ℕ) : String :=
  String.mk ((s.data.drop left).take (right - left))

/-- Global state of the usage aggregator (DSMR.ino lines 89-93). -/
structure UsageState where
  lastTimestamp : String
  dayUsage : ℚ
  lastDelivered : ℚ
  lastReturned : ℚ
  dayUsageStr : String
deriving DecidableEq

/-- Initial values of the aggregator globals (DSMR.ino lines 89-93):
`lastTimestamp = ""`, `dayUsage = 0`, `lastDelivered = -1`,
`lastReturned = -1`, `dayUsageStr = "0kW"`. -/
def initState : UsageState :=
  ⟨"", 0, -1, -1, "0kW"⟩

/-- Model of `updateUsage` (DSMR.ino lines 318-340), acting on the globals. -/
def updateUsage (s0 : UsageState) (timestamp : String)
    (del1 del2 ret1 ret2 : ℚ) : UsageState :=
  -- Check if we are in a new day (lines 320-324)
  let currentTimestamp := substring timestamp 0 6
  let s1 := if s0.lastTimestamp = currentTimestamp then s0
    else { s0 with lastTimestamp := currentTimestamp, dayUsage := 0 }
  -- Calculate current day usage (lines 327-335)
  let s2 := if 0 ≤ s1.lastDelivered then
      let dayUsage := s1.dayUsage +
        ((del1 + del2) - s1.lastDelivered) - ((ret1 + ret2) - s1.lastReturned)
      { s1 with
        dayUsage := dayUsage,
        dayUsageStr :=
          String.mk (dtostrf1 (((roundAway (dayUsage * 10) : ℤ) : ℚ) / 10)
            (if 10 ≤ |dayUsage| then 4 else 3)) ++ "kW" }
    else s1
  -- Update internal counters (lines 338-339)
  { s2 with lastDelivered := del1 + del2, lastReturned := ret1 + ret2 }

theorem updateUsage_lastDelivered (s : UsageState) (t : String) (d1 d2 r1 r2 : ℚ) :
    (updateUsage s t d1 d2 r1 r2).lastDelivered = d1 + d2 := rfl

theorem updateUsage_lastReturned (s : UsageState) (t : String) (d1 d2 r1 r2 : ℚ) :
    (updateUsage s t d1 d2 r1 r2).lastReturned = r1 + r2 := rfl

theorem updateUsage_lastTimestamp (s : UsageState) (t : String) (d1 d2 r1 r2 : ℚ) :
    (updateUsage s t d1 d2 r1 r2).lastTimestamp = substring t 0 6 := by
  simp only [updateUsage]
  split_ifs with h1 h2 h3 <;> simp_all

theorem updateUsage_dayUsage_sameday (s : UsageState) (t : String) (d1 d2 r1 r2 : ℚ)
    (h : s.lastTimestamp = substring t 0 6) :
    (updateUsage s t d1 d2 r1 r2).dayUsage =
      if 0 ≤ s.lastDelivered then
        s.dayUsage + ((d1 + d2) - s.lastDelivered) - ((r1 + r2) - s.lastReturned)
      else s.dayUsage := by
  simp only [updateUsage, if_pos h]
  split_ifs with h2 <;> rfl

theorem updateUsage_dayUsage_newday (s : UsageState) (t : String) (d1 d2 r1 r2 : ℚ)
    (h : s.lastTimestamp ≠ substring t 0 6) :
    (updateUsage s t d1 d2 r1 r2).dayUsage =
      if 0 ≤ s.lastDelivered then
        ((d1 + d2) - s.lastDelivered) - ((r1 + r2) - s.lastReturned)
      else 0 := by
  simp only [updateUsage, if_neg h]
  split_ifs with h2 <;> norm_num

theorem substring_of_short (t : String) (h : t.length < 6) :
    substring t 0 6 = t := by
  unfold substring
  cases t with
  | mk data =>
    simp only [String.length] at h
    simp [List.take_of_length_le (Nat.le_of_lt h)]

/-- C2 counterexample: on the 3-character timestamp `"123"` the aggregator does
not fail: the call runs to completion, the day-boundary comparison/reset logic
executes (the stored day key changes from `""` to `"123"`), and the baselines
are updated as on any other call. This contradicts the claim that a short
timestamp makes `update` fail explicitly with a format error and that the
day-boundary logic does not execute on such input. -/
theorem C2_counterexample :
    (updateUsage initState "123" 1 2 3 4).lastTimestamp = "123" ∧
      (updateUsage initState "123" 1 2 3 4).lastDelivered = 3 := by
  constructor
  · rw [updateUsage_lastTimestamp]; decide
  · rw [updateUsage_lastDelivered]; norm_num

/-- C2 (amended): for every timestamp shorter than 6 characters,
`updateUsage` performs no out-of-bounds read — Arduino `substring` clamps to
the string length — and no error is signalled; the whole short timestamp is
used as the day key (the stored day key after the call is the timestamp
itself) and the day-boundary logic executes normally with that key. -/
theorem C2_short_timestamp_amended (s : UsageState) (t : String) (d1 d2 r1 r2 : ℚ)
    (h : t.length < 6) :
    (updateUsage s t d1 d2 r1 r2).lastTimestamp = t := by
  rw [updateUsage_lastTimestamp, substring_of_short t h]

theorem C2_short_timestamp_amended_witness :
    ("250" : String).length < 6 ∧
      (updateUsage initState "250" 1 2 3 4).lastTimestamp = "250" :=
  ⟨by decide, C2_short_timestamp_amended initState "250" 1 2 3 4 (by decide)⟩

/-- C3 counterexample: two consecutive calls from the initial state whose
timestamps have different 6-character date prefixes; on the later call the
stored `dayUsage` does not end up 0 — after the mid-call reset the current
register delta (here 1) is still added, so the claim that the later call
"resets dayTotal to 0, irrespective of the register deltas" is false as a
statement about the call's result. -/
theorem C3_counterexample :
    (updateUsage (updateUsage initState "250101000010" 10 0 0 0)
        "250102000010" 11 0 0 0).dayUsage ≠ 0 := by
  have h1 : (updateUsage initState "250101000010" 10 0 0 0).lastTimestamp = "250101" := by
    rw [updateUsage_lastTimestamp]; decide
  have h2 : (updateUsage initState "250101000010" 10 0 0 0).lastDelivered = 10 := by
    rw [updateUsage_lastDelivered]; norm_num
  have h3 : (updateUsage initState "250101000010" 10 0 0 0).lastReturned = 0 := by
    rw [updateUsage_lastReturned]; norm_num
  rw [updateUsage_dayUsage_newday]
  · rw [h2, h3, if_pos (by norm_num : (0:ℚ) ≤ 10)]
    norm_num
  · rw [h1]; decide

/-- C3 (amended): when the 6-character date prefix of the timestamp differs
from the stored day key, the call discards the previously accumulated
`dayUsage` (resetting it to 0 before the delta step): its resulting `dayUsage`
is exactly the current interval's register delta when the baseline is set, and
0 when the baseline is unset — independent of the prior `dayUsage`. -/
theorem C3_dayreset_amended (s : UsageState) (t : String) (d1 d2 r1 r2 : ℚ)
    (h : s.lastTimestamp ≠ substring t 0 6) :
    (updateUsage s t d1 d2 r1 r2).dayUsage =
      if 0 ≤ s.lastDelivered then
        ((d1 + d2) - s.lastDelivered) - ((r1 + r2) - s.lastReturned)
      else 0 :=
  updateUsage_dayUsage_newday s t d1 d2 r1 r2 h

theorem C3_dayreset_amended_witness :
    (⟨"250101", 5, 10, 0, "0kW"⟩ : UsageState).lastTimestamp ≠
        substring "250102000010" 0 6 ∧
      (updateUsage ⟨"250101", 5, 10, 0, "0kW"⟩ "250102000010" 11 0 0 0).dayUsage = 1 :=
  ⟨by decide, by
    rw [C3_dayreset_amended _ _ _ _ _ _ (by decide)]
    norm_num⟩

/-- C4: the first call to the aggregator after initialization (baseline still
the -1 sentinel) leaves `dayUsage` equal to 0 for every timestamp and all
register values: no delta is applied, the call only establishes the baseline. -/
theorem C4_first_update_no_delta (t : String) (d1 d2 r1 r2 : ℚ) :
    (updateUsage initState t d1 d2 r1 r2).dayUsage = 0 := by
  by_cases h : initState.lastTimestamp = substring t 0 6
  · rw [updateUsage_dayUsage_sameday _ _ _ _ _ _ h]
    norm_num [initState]
  · rw [updateUsage_dayUsage_newday _ _ _ _ _ _ h]
    norm_num [initState]

/-- C5: with the baseline set (not the sentinel) and an unchanged day key,
`dayUsage` increases by exactly
`((del1+del2) - lastDelivered) - ((ret1+ret2) - lastReturned)`; the witness
instantiates the spec's example (baseline delivered-sum 5, returned-sum 0;
update with delivered-sum 6.5, returned-sum 0.5; increase exactly 1). -/
theorem C5_delta_formula (s : UsageState) (t : String) (d1 d2 r1 r2 : ℚ)
    (hbase : 0 ≤ s.lastDelivered)
    (hday : s.lastTimestamp = substring t 0 6) :
    (updateUsage s t d1 d2 r1 r2).dayUsage =
      s.dayUsage + ((d1 + d2) - s.lastDelivered) - ((r1 + r2) - s.lastReturned) := by
  rw [updateUsage_dayUsage_sameday _ _ _ _ _ _ hday, if_pos hbase]

theorem C5_delta_formula_witness :
    (0:ℚ) ≤ (⟨"250101", 0, 5, 0, "0kW"⟩ : UsageState).lastDelivered ∧
      (⟨"250101", 0, 5, 0, "0kW"⟩ : UsageState).lastTimestamp =
        substring "250101123456" 0 6 ∧
      (updateUsage ⟨"250101", 0, 5, 0, "0kW"⟩ "250101123456" (13/2) 0 (1/2) 0).dayUsage = 1 :=
  ⟨by norm_num, by decide, by
    rw [C5_delta_formula _ _ _ _ _ _ (by norm_num) (by decide)]
    norm_num⟩

/-! ### Call sequences, for the baseline invariant (C9) -/

/-- One parsed reading handed to the aggregator, as in the dispatch loop
(DSMR.ino lines 480-486). In `arduino-dsmr`, the four energy registers are
`FixedValue`s parsed from unsigned decimal digits, so they are nonnegative. -/
structure MeterCall where
  timestamp : String
  del1 : ℚ
  del2 : ℚ
  ret1 : ℚ
  ret2 : ℚ

def applyUpdate (s : UsageState) (c : MeterCall) : UsageState :=
  updateUsage s c.timestamp c.del1 c.del2 c.ret1 c.ret2

def runUpdates (s : UsageState) (cs : List MeterCall) : UsageState :=
  cs.foldl applyUpdate s

theorem runUpdates_baselines_nonneg (cs : List MeterCall) (s : UsageState)
    (hcs : ∀ c ∈ cs, 0 ≤ c.del1 ∧ 0 ≤ c.del2 ∧ 0 ≤ c.ret1 ∧ 0 ≤ c.ret2)
    (hs : 0 ≤ s.lastDelivered ∧ 0 ≤ s.lastReturned) :
    0 ≤ (runUpdates s cs).lastDelivered ∧ 0 ≤ (runUpdates s cs).lastReturned := by
  induction cs generalizing s with
  | nil => exact hs
  | cons c cs ih =>
    have hc := hcs c (List.mem_cons_self c cs)
    have hstep : runUpdates s (c :: cs) = runUpdates (applyUpdate s c) cs := rfl
    rw [hstep]
    refine ih (applyUpdate s c) (fun x hx => hcs x (List.mem_cons_of_mem c hx)) ⟨?_, ?_⟩
    · simp only [applyUpdate, updateUsage_lastDelivered]
      linarith [hc.1, hc.2.1]
    · simp only [applyUpdate, updateUsage_lastReturned]
      linarith [hc.2.2.1, hc.2.2.2]

/-- C9: after initialization and after every sequence of aggregator calls
(with the nonnegative register values that the `FixedValue` parser produces),
`lastDelivered` is negative (unset, sentinel -1) exactly when `lastReturned`
is: the two baseline fields are always both unset or both set, so the delta
guard `lastDelivered >= 0` never lets an unset `lastReturned` be read. -/
theorem C9_baselines_both_set_or_both_unset (cs : List MeterCall)
    (hcs : ∀ c ∈ cs, 0 ≤ c.del1 ∧ 0 ≤ c.del2 ∧ 0 ≤ c.ret1 ∧ 0 ≤ c.ret2) :
    ((runUpdates initState cs).lastDelivered < 0 ↔
      (runUpdates initState cs).lastReturned < 0) := by
  cases cs with
  | nil =>
    show initState.lastDelivered < 0 ↔ initState.lastReturned < 0
    norm_num [initState]
  | cons c cs =>
    have hc := hcs c (List.mem_cons_self c cs)
    have h := runUpdates_baselines_nonneg cs (applyUpdate initState c)
      (fun x hx => hcs x (List.mem_cons_of_mem c hx))
      ⟨by simp only [applyUpdate, updateUsage_lastDelivered]; linarith [hc.1, hc.2.1],
       by simp only [applyUpdate, updateUsage_lastReturned]; linarith [hc.2.2.1, hc.2.2.2]⟩
    have hstep : runUpdates initState (c :: cs) = runUpdates (applyUpdate initState c) cs := rfl
    rw [hstep]
    constructor
    · intro hlt; linarith [h.1]
    · intro hlt; linarith [h.2]

theorem C9_baselines_witness :
    (∀ c ∈ [(⟨"250101000000", 1, 2, 3, 4⟩ : MeterCall)],
        0 ≤ c.del1 ∧ 0 ≤ c.del2 ∧ 0 ≤ c.ret1 ∧ 0 ≤ c.ret2) ∧
      ((runUpdates initState [⟨"250101000000", 1, 2, 3, 4⟩]).lastDelivered < 0 ↔
        (runUpdates initState [⟨"250101000000", 1, 2, 3, 4⟩]).lastReturned < 0) := by
  have hcs : ∀ c ∈ [(⟨"250101000000", 1, 2, 3, 4⟩ : MeterCall)],
      0 ≤ c.del1 ∧ 0 ≤ c.del2 ∧ 0 ≤ c.ret1 ∧ 0 ≤ c.ret2 := by
    intro c hc
    rw [List.mem_singleton] at hc
    subst hc
    refine ⟨by norm_num, by norm_num, by norm_num, by norm_num⟩
  exact ⟨hcs, C9_baselines_both_set_or_both_unset _ hcs⟩

/-! ### GaugeMapper: `setCurrentValue` and its globals (DSMR.ino 69-70, 85-88, 294-312) -/

/-- Dial calibration constant (DSMR.ino line 69). -/
def MAX_POWER_CONSUMPTION : ℚ := 18

/-- Dial calibration constant (DSMR.ino line 70). -/
def MAX_POWER_RETURN : ℚ := 6

/-- TFT_eSPI 16-bit color constant. -/
def TFT_GREEN : ℕ := 0x07E0

/-- TFT_eSPI 16-bit color constant. -/
def TFT_RED : ℕ := 0xF800

/-- Conversion of a C floating-point value to an integer type truncates toward
zero; `dialAngle` is an `int16_t` assigned from a `float` expression. (For
every input whose angle fits in int16_t — all physically meaningful powers —
the conversion is exactly this truncation.) -/
def truncQ (q : ℚ) : ℤ :=
  if q < 0 then ⌈q⌉ else ⌊q⌋

/-- Global display state written by `setCurrentValue`
(DSMR.ino lines 85-88). -/
structure CurrentState where
  currentUsage : ℚ
  dialAngle : ℤ
  currentColor : ℕ
  currentUsageStr : String

/-- Model of `setCurrentValue` (DSMR.ino lines 294-312). -/
def setCurrentValue (currentValue : ℚ) : CurrentState :=
  { currentUsage := currentValue,
    -- Set rotation of the needle (line 298); `dialAngle` is an `int16_t`
    dialAngle := truncQ ((-90) +
      (((currentValue + MAX_POWER_RETURN) /
          (MAX_POWER_RETURN + MAX_POWER_CONSUMPTION)) * 180)),
    -- Set the dial text color (lines 301-305)
    currentColor := if currentValue < 0 then TFT_GREEN else TFT_RED,
    -- Convert value to string with 1 digit after the decimal point (308-311):
    -- dtostrf(abs(round(currentValue * 10) / 10), currentValue >= 10 ? 4 : 3, 1, out)
    currentUsageStr :=
      String.mk (dtostrf1 |((roundAway (currentValue * 10) : ℤ) : ℚ) / 10|
        (if 10 ≤ currentValue then 4 else 3)) ++ "kW" }

theorem truncQ_of_neg {q : ℚ} (h : q < 0) : truncQ q = ⌈q⌉ := by
  rw [truncQ, if_pos h]

theorem truncQ_of_nonneg {q : ℚ} (h : 0 ≤ q) : truncQ q = ⌊q⌋ := by
  rw [truncQ, if_neg (not_lt.mpr h)]

theorem truncQ_intCast (n : ℤ) : truncQ ((n : ℚ)) = n := by
  rw [truncQ]
  split_ifs with h
  · exact Int.ceil_intCast n
  · exact Int.floor_intCast n

theorem truncQ_mono {a b : ℚ} (h : a ≤ b) : truncQ a ≤ truncQ b := by
  rw [truncQ, truncQ]
  split_ifs with h1 h2 h3
  · exact Int.ceil_le_ceil h
  · calc ⌈a⌉ ≤ (0:ℤ) := Int.ceil_le.mpr (by exact_mod_cast le_of_lt h1)
    _ ≤ ⌊b⌋ := Int.le_floor.mpr (by exact_mod_cast not_lt.mp h2)
  · exact absurd (lt_of_le_of_lt h h3) h1
  · exact Int.floor_le_floor h

/-- C6 counterexample: at netPower = 1 the produced angle is the integer -37
(the formula value -37.5 truncated toward zero into the int16_t `dialAngle`),
so the angle does not equal `-90 + ((netPower + 6) / 24) * 180` for every
netPower as the claim states. -/
theorem C6_counterexample :
    ((setCurrentValue 1).dialAngle : ℚ) ≠ -90 + (((1:ℚ) + 6) / 24) * 180 := by
  have e0 : ((-90:ℚ)) + (((1 + MAX_POWER_RETURN) /
      (MAX_POWER_RETURN + MAX_POWER_CONSUMPTION)) * 180) = -(75/2) := by
    norm_num [MAX_POWER_RETURN, MAX_POWER_CONSUMPTION]
  have e1 : (setCurrentValue 1).dialAngle = -37 := by
    show truncQ ((-90) + (((1 + MAX_POWER_RETURN) /
      (MAX_POWER_RETURN + MAX_POWER_CONSUMPTION)) * 180)) = -37
    rw [e0, truncQ_of_neg (by norm_num), Int.ceil_neg]
    norm_num
  rw [e1]
  norm_num

/-- C6 (amended): the produced angle is the spec formula
`-90 + ((netPower + 6) / 24) * 180` truncated toward zero to an integer
(`dialAngle` is an int16_t), still without clamping to [-90, 90] (netPower 100
yields 705); the three calibration points are exact: map 0 = -45, map 18 = 90,
map (-6) = -90. -/
theorem C6_gauge_angle_amended :
    (∀ netPower : ℚ, (setCurrentValue netPower).dialAngle =
        truncQ (-90 + ((netPower + 6) / 24) * 180)) ∧
      (setCurrentValue 0).dialAngle = -45 ∧
      (setCurrentValue 18).dialAngle = 90 ∧
      (setCurrentValue (-6)).dialAngle = -90 ∧
      (setCurrentValue 100).dialAngle = 705 := by
  have hform : ∀ v : ℚ, (setCurrentValue v).dialAngle =
      truncQ (-90 + ((v + 6) / 24) * 180) := by
    intro v
    show truncQ ((-90) + (((v + MAX_POWER_RETURN) /
      (MAX_POWER_RETURN + MAX_POWER_CONSUMPTION)) * 180)) = _
    congr 1
    rw [MAX_POWER_RETURN, MAX_POWER_CONSUMPTION]
    norm_num
  refine ⟨hform, ?_, ?_, ?_, ?_⟩
  · rw [hform 0, show (-90 + (((0:ℚ) + 6) / 24) * 180) = ((-45 : ℤ) : ℚ) by norm_num,
      truncQ_intCast]
  · rw [hform 18, show (-90 + (((18:ℚ) + 6) / 24) * 180) = ((90 : ℤ) : ℚ) by norm_num,
      truncQ_intCast]
  · rw [hform (-6), show (-90 + (((-6:ℚ) + 6) / 24) * 180) = ((-90 : ℤ) : ℚ) by norm_num,
      truncQ_intCast]
  · rw [hform 100, show (-90 + (((100:ℚ) + 6) / 24) * 180) = ((705 : ℤ) : ℚ) by norm_num,
      truncQ_intCast]

/-- C10: the gauge angle is monotone non-decreasing in netPower: for inputs
x ≤ y the produced `dialAngle` for x is at most the one for y (the affine
formula has positive slope and truncation toward zero is monotone). -/
theorem C10_gauge_angle_monotone (x y : ℚ) (h : x ≤ y) :
    (setCurrentValue x).dialAngle ≤ (setCurrentValue y).dialAngle := by
  show truncQ ((-90) + (((x + MAX_POWER_RETURN) /
      (MAX_POWER_RETURN + MAX_POWER_CONSUMPTION)) * 180)) ≤
    truncQ ((-90) + (((y + MAX_POWER_RETURN) /
      (MAX_POWER_RETURN + MAX_POWER_CONSUMPTION)) * 180))
  apply truncQ_mono
  rw [MAX_POWER_RETURN, MAX_POWER_CONSUMPTION]
  have ex : ∀ v : ℚ, (-90:ℚ) + ((v + 6) / (6 + 18)) * 180 = (15/2) * v - 45 :=
    fun v => by ring
  rw [ex x, ex y]
  linarith

theorem C10_gauge_angle_monotone_witness :
    (0:ℚ) ≤ 1 ∧ (setCurrentValue 0).dialAngle ≤ (setCurrentValue 1).dialAngle :=
  ⟨by norm_num, C10_gauge_angle_monotone 0 1 (by norm_num)⟩

/-! ### Display-text formatting (C7) -/

theorem roundAway_nonneg {q : ℚ} (h : 0 ≤ q) : 0 ≤ roundAway q := by
  rw [roundAway, if_neg (not_lt.mpr h)]
  exact Int.le_floor.mpr (by push_cast; linarith)

theorem roundAway_neg_arg (q : ℚ) : roundAway (-q) = -roundAway q := by
  rcases lt_trichotomy q 0 with h | h | h
  · rw [roundAway, if_neg (by linarith : ¬ -q < 0), roundAway, if_pos h, neg_neg]
  · rw [h, neg_zero]
    have h0 : roundAway 0 = 0 := by
      rw [roundAway, if_neg (lt_irrefl 0), zero_add]
      norm_num
    rw [h0, neg_zero]
  · rw [roundAway, if_pos (by linarith : -q < 0), roundAway,
      if_neg (not_lt.mpr (le_of_lt h)), neg_neg]

theorem roundAway_nonpos {q : ℚ} (h : q ≤ 0) : roundAway q ≤ 0 := by
  have e : q = -(-q) := by ring
  rw [e, roundAway_neg_arg]
  have := roundAway_nonneg (q := -q) (by linarith)
  omega

theorem roundAway_abs (q : ℚ) : roundAway |q| = |roundAway q| := by
  rcases le_or_lt 0 q with h | h
  · rw [abs_of_nonneg h, abs_of_nonneg (roundAway_nonneg h)]
  · rw [abs_of_neg h, roundAway_neg_arg,
      abs_of_nonpos (roundAway_nonpos (le_of_lt h))]

theorem roundAway_intCast (n : ℤ) : roundAway ((n : ℚ)) = n := by
  rw [roundAway]
  split_ifs with h
  · rw [show -((n:ℚ)) = (((-n : ℤ)) : ℚ) by push_cast; ring, Int.floor_int_add]
    norm_num
  · rw [Int.floor_int_add]
    norm_num

theorem natDigitsGo_length_pos (fuel n : ℕ) (h : n < fuel) :
    1 ≤ (natDigitsGo fuel n).length := by
  cases fuel with
  | zero => omega
  | succ f =>
    rw [natDigitsGo]
    split_ifs with h10 <;> simp

theorem natDigitsGo_length_ge_two (fuel n : ℕ) (hfuel : n < fuel) (h10 : 10 ≤ n) :
    2 ≤ (natDigitsGo fuel n).length := by
  cases fuel with
  | zero => omega
  | succ f =>
    rw [natDigitsGo, if_neg (by omega)]
    have hpos : 1 ≤ (natDigitsGo f (n / 10)).length :=
      natDigitsGo_length_pos f (n / 10) (by omega)
    simp only [List.length_append, List.length_cons, List.length_nil]
    omega

theorem natDigits_length_pos (n : ℕ) : 1 ≤ (natDigits n).length :=
  natDigitsGo_length_pos (n + 1) n (Nat.lt_succ_self n)

theorem natDigits_length_ge_two (n : ℕ) (h : 10 ≤ n) : 2 ≤ (natDigits n).length :=
  natDigitsGo_length_ge_two (n + 1) n (Nat.lt_succ_self n) h

theorem padLeft_of_le (width : ℕ) (s : List Char) (h : width ≤ s.length) :
    padLeft width s = s := by
  rw [padLeft, Nat.sub_eq_zero_of_le h, List.replicate_zero, List.nil_append]

/-- Evaluation of `dtostrf1` at the values the gauge code passes it: the
absolute value of an integer number of tenths. The rendering has no sign and
re-rounding is the identity. -/
theorem dtostrf1_abs_tenths (r : ℤ) (width : ℕ) :
    dtostrf1 |((r : ℚ)) / 10| width =
      padLeft width
        (natDigits (r.natAbs / 10) ++ [Char.ofNat 46, Nat.digitChar (r.natAbs % 10)]) := by
  have h1 : |((r : ℚ)) / 10| * 10 = (((r.natAbs : ℤ)) : ℚ) := by
    rw [abs_div, show |(10:ℚ)| = 10 by norm_num, div_mul_cancel₀ _ (by norm_num : (10:ℚ) ≠ 0)]
    rw [← Int.cast_abs, Int.abs_eq_natAbs]
  simp only [dtostrf1, h1, roundAway_intCast]
  rw [if_neg (by omega : ¬ ((r.natAbs : ℤ)) < 0), Int.natAbs_ofNat, List.nil_append]

/-- Display text exactly as the spec words it: the absolute value of netPower
rounded to one decimal place (half away from zero), rendered fixed-point with
exactly one fractional digit, left-padded to minimum total width 4 when the
rounded magnitude is at least 10 and 3 otherwise, followed by the unit
suffix. -/
def specCurrentUsageStr (netPower : ℚ) : String :=
  let m := (roundAway (|netPower| * 10)).toNat
  String.mk (padLeft (if 10 ≤ ((m : ℚ) / 10) then 4 else 3)
    (natDigits (m / 10) ++ [Char.ofNat 46, Nat.digitChar (m % 10)])) ++ "kW"

/-- C7: for every netPower the code's display text equals the text described
by the spec — |netPower| rounded half away from zero to one decimal,
fixed-point with one fractional digit, minimum width 4 when the rounded
magnitude is ≥ 10 and 3 otherwise, plus the unit suffix. The code decides the
width from the unrounded signed value (`currentValue >= 10 ? 4 : 3`), but the
natural length of the digits already meets either minimum in every case, so
the two descriptions render identically; in particular map(9.96) gives
"10.0" plus the suffix. -/
theorem C7_text_formatting :
    (∀ netPower : ℚ,
        (setCurrentValue netPower).currentUsageStr = specCurrentUsageStr netPower) ∧
      (setCurrentValue (996/100)).currentUsageStr = "10.0kW" := by
  constructor
  · intro v
    simp only [setCurrentValue, specCurrentUsageStr]
    have hm : (roundAway (|v| * 10)).toNat = (roundAway (v * 10)).natAbs := by
      rw [show |v| * 10 = |v * 10| by rw [abs_mul]; norm_num, roundAway_abs,
        Int.abs_eq_natAbs, Int.toNat_natCast]
    rw [dtostrf1_abs_tenths, hm]
    have hlen3 : 3 ≤ (natDigits ((roundAway (v * 10)).natAbs / 10) ++
        [Char.ofNat 46, Nat.digitChar ((roundAway (v * 10)).natAbs % 10)]).length := by
      simp only [List.length_append, List.length_cons, List.length_nil]
      have := natDigits_length_pos ((roundAway (v * 10)).natAbs / 10)
      omega
    by_cases h100 : 100 ≤ (roundAway (v * 10)).natAbs
    · have hlen4 : 4 ≤ (natDigits ((roundAway (v * 10)).natAbs / 10) ++
          [Char.ofNat 46, Nat.digitChar ((roundAway (v * 10)).natAbs % 10)]).length := by
        simp only [List.length_append, List.length_cons, List.length_nil]
        have := natDigits_length_ge_two ((roundAway (v * 10)).natAbs / 10) (by omega)
        omega
      rw [padLeft_of_le _ _ (by split_ifs <;> omega),
        padLeft_of_le _ _ (by split_ifs <;> omega)]
    · have hv : ¬ (10:ℚ) ≤ v := by
        intro hv10
        have hq : (100 : ℚ) ≤ v * 10 := by linarith
        have hz : (100 : ℤ) ≤ roundAway (v * 10) := by
          rw [roundAway, if_neg (by linarith : ¬ v * 10 < 0)]
          exact Int.le_floor.mpr (by push_cast; linarith)
        omega
      have hspec : ¬ (10:ℚ) ≤ (((roundAway (v * 10)).natAbs : ℚ) / 10) := by
        rw [le_div_iff₀ (by norm_num : (0:ℚ) < 10)]
        intro hc
        have : (100 : ℤ) ≤ ((roundAway (v * 10)).natAbs : ℤ) := by exact_mod_cast hc
        omega
      rw [if_neg hv, if_neg hspec, padLeft_of_le _ _ hlen3]
  · have hr : roundAway ((996:ℚ)/100 * 10) = 100 := by
      rw [roundAway, if_neg (by norm_num),
        show (996:ℚ)/100 * 10 + 1/2 = 1001/10 by norm_num]
      norm_num
    simp only [setCurrentValue]
    rw [hr, if_neg (by norm_num : ¬ (10:ℚ) ≤ 996/100), dtostrf1_abs_tenths 100 3]
    decide

end DSMR
